import Mathlib

/-!
Shallow embedding of the bmin520 pipeline (nodeEmbedding.py, utils.py):
node-id mapping, edge-index construction, Node2Vec run configuration,
feature/label generation, classifier training configuration, patient
filtering by ICD-10 code, and ICD code sorting.  Python dictionaries are
modelled as association lists, dictionary lookups (which may raise
KeyError) as Option-valued lookups, numeric matrix cells as rationals,
and functions that may raise return Option.
-/

namespace Bmin520

/-- One node of the knowledge graph as loaded from GML: a string name and
an optional `type` attribute (absent attributes model `attrs.get` returning
`None` in Python). -/
structure KGNode where
  name : String
  ntype : Option String

/-- The loaded knowledge graph: nodes with attributes, and the edge list as
pairs of endpoint names.  Parallel edges are kept with multiplicity, as a
networkx multigraph reports them. -/
structure KnowledgeGraph where
  nodes : List KGNode
  edges : List (String × String)

/-- The node-name list of the graph, in iteration order: models
`list(self.kg.nodes())`. -/
def node_names (kg : KnowledgeGraph) : List String :=
  kg.nodes.map KGNode.name

/-- Models `create_node_mapping` (nodeEmbedding.py lines 18-21): the dict
`{node: idx for idx, node in enumerate(self.node_list)}` as an association
list pairing each node name with its position. -/
def create_node_mapping (node_list : List String) : List (String × Nat) :=
  node_list.zip (List.range node_list.length)

/-- Dictionary access `self.node_to_id[s]`: `some` the stored id, or `none`
when the key is missing (Python would raise KeyError). -/
def lookup_id (m : List (String × Nat)) (s : String) : Option Nat :=
  m.lookup s

/-- Models `prepare_edge_index` (nodeEmbedding.py lines 23-28): for every
edge it appends `[node_to_id[u], node_to_id[v]]` and then
`[node_to_id[v], node_to_id[u]]`; a missing endpoint key makes the whole
call fail (KeyError). -/
def prepare_edge_index (m : List (String × Nat)) :
    List (String × String) → Option (List (Nat × Nat))
  | [] => some []
  | e :: rest => do
    let a ← lookup_id m e.1
    let b ← lookup_id m e.2
    let tail ← prepare_edge_index m rest
    pure ((a, b) :: (b, a) :: tail)

/-- Models the gene/protein node selection of
`generate_features_and_labels` (nodeEmbedding.py lines 64-67):
`[node for node, attrs in kg.nodes(data=True) if attrs.get('type') == 'gene/protein']`. -/
def gene_protein_nodes (kg : KnowledgeGraph) : List String :=
  (kg.nodes.filter (fun n => n.ntype = some "gene/protein")).map KGNode.name

/-- Models the id-lookup list comprehensions of
`generate_features_and_labels` (nodeEmbedding.py lines 68-69), e.g.
`[self.node_to_id[pid] for pid in patient_ids]`: each missing key raises
KeyError, failing the whole comprehension. -/
def lookup_ids (m : List (String × Nat)) : List String → Option (List Nat)
  | [] => some []
  | s :: rest => do
    let i ← lookup_id m s
    let tail ← lookup_ids m rest
    pure (i :: tail)

/-- Models `generate_features_and_labels` (nodeEmbedding.py lines 62-84).
`embeddings` is row access into the trained embedding matrix,
`variant p g` is the cell `variant_df.loc[p, g]`.  Patient and gene index
lists are computed first (each lookup may raise KeyError, hence `Option`);
the nested loop over `zip(patient_indices, patient_ids)` and
`zip(gene_indices, gene_protein_nodes)` then appends one feature
(concatenated embeddings) and one 0/1 label per pair. -/
def generate_features_and_labels (m : List (String × Nat))
    (embeddings : Nat → List ℚ) (variant : String → String → ℚ)
    (patient_ids gene_nodes : List String) :
    Option (List (List ℚ) × List Nat) := do
  let patient_indices ← lookup_ids m patient_ids
  let gene_indices ← lookup_ids m gene_nodes
  let features := (patient_indices.zip patient_ids).flatMap (fun p =>
    (gene_indices.zip gene_nodes).map (fun g => embeddings p.1 ++ embeddings g.1))
  let labels := (patient_indices.zip patient_ids).flatMap (fun p =>
    (gene_indices.zip gene_nodes).map (fun g => if variant p.2 g.2 ≠ 0 then 1 else 0))
  pure (features, labels)

/-- The full configuration with which `train_node_embeddings`
(nodeEmbedding.py lines 30-49) runs Node2Vec and its optimizer. -/
structure Node2VecRunConfig where
  embedding_dim : Nat
  walk_length : Nat
  context_size : Nat
  walks_per_node : Nat
  p : ℚ
  q : ℚ
  sparse : Bool
  batch_size : Nat
  learning_rate : ℚ
  num_epochs : Nat
deriving DecidableEq

/-- The externally configurable parameters of `train_node_embeddings`:
its Python signature is `def train_node_embeddings(self, embedding_dim=128)`,
so the embedding dimension is the only one. -/
def train_node_embeddings_external_params : List String :=
  ["embedding_dim"]

/-- The default value of the sole external parameter `embedding_dim`. -/
def train_node_embeddings_default_dim : Nat := 128

/-- Models the configuration `train_node_embeddings` assembles
(nodeEmbedding.py lines 32-49): Node2Vec(walk_length=50, context_size=20,
walks_per_node=40, p=0.5, q=2, sparse=True), loader batch_size=64,
SparseAdam lr=0.005, and the epoch loop `range(1, 51)` giving 50 epochs. -/
def train_node_embeddings_config (embedding_dim : Nat) : Node2VecRunConfig :=
  { embedding_dim := embedding_dim
    walk_length := 50
    context_size := 20
    walks_per_node := 40
    p := 1 / 2
    q := 2
    sparse := true
    batch_size := 64
    learning_rate := 1 / 200
    num_epochs := 50 }

/-- The fixed settings of `train_binary_classifier` (nodeEmbedding.py
lines 86-95): the split, the classifier, the persistence target and the
metrics computed on the held-out predictions. -/
structure TrainBinaryClassifierRun where
  test_size : ℚ
  random_state : Nat
  classifier_type : String
  classifier_solver : String
  classifier_max_iter : Nat
  model_persisted_to : String
  metrics : List String
  metrics_split : String
deriving DecidableEq

/-- Models `train_binary_classifier` (nodeEmbedding.py lines 86-95):
`train_test_split(..., test_size=0.2, random_state=42)`,
`LogisticRegression(max_iter=1000, solver='saga')`, `joblib.dump(...)`,
and precision/recall/F1/accuracy computed from `y_test` and the
predictions on `X_test`. -/
def train_binary_classifier_run : TrainBinaryClassifierRun :=
  { test_size := 1 / 5
    random_state := 42
    classifier_type := "LogisticRegression"
    classifier_solver := "saga"
    classifier_max_iter := 1000
    model_persisted_to := "./logistic_regression_model.pkl"
    metrics := ["precision", "recall", "f1", "accuracy"]
    metrics_split := "test" }

/-- Partition sizes produced by sklearn `train_test_split` with
`test_size=0.2` on `n` samples: the test part gets `ceil(n * 0.2)`
elements (here the exact rational ceiling `⌈n/5⌉ = (n+4)/5`) and the
train part the rest. -/
def train_test_split_counts (n : Nat) : Nat × Nat :=
  let n_test := (n + 4) / 5
  (n - n_test, n_test)

/-- Models `np.save("./node_embeddings.npy", self.embeddings)`
(nodeEmbedding.py line 60) at the level of the `.npy` format: a shape
header `(rows, dim)` followed by the row-major flattened buffer. -/
def npy_save (dim : Nat) (matrix : List (List ℚ)) : (Nat × Nat) × List ℚ :=
  ((matrix.length, dim), matrix.flatten)

/-- Rebuild `rows` rows of width `dim` from a flat row-major buffer. -/
def unflatten (dim : Nat) : Nat → List ℚ → List (List ℚ)
  | 0, _ => []
  | rows + 1, flat => flat.take dim :: unflatten dim rows (flat.drop dim)

/-- Models `np.load` of a saved embedding matrix: read the shape header
and cut the flat buffer back into rows. -/
def npy_load (file : (Nat × Nat) × List ℚ) : List (List ℚ) :=
  unflatten file.1.2 file.1.1 file.2

/-- Modelled from the spec: persistence and reload of the node-id mapping
is not implemented under src/ (only the embeddings are saved, line 60);
the spec's round-trip property assumes the node list is stored one name
per id in id order and read back unchanged, after which the mapping is
rebuilt with `create_node_mapping`. -/
def reload_node_list (stored : List String) : List String :=
  stored

/-- The patient-by-ICD-10 matrix of `filter_pmbb_by_icd10` after
`fillna(0)`: the column names (including `PMBB_ID`) and one row per
record, a `PMBB_ID` plus the numeric cell for each code column. -/
structure ICD10Matrix where
  columns : List String
  rows : List (String × (String → ℚ))

/-- Models the patient selection of `filter_pmbb_by_icd10` (utils.py
lines 104-108): keep code columns other than `PMBB_ID` not starting with
the excluded prefix (`col.startswith(exclude_prefix)` is a character-level
prefix test); if the requested code is among them, the unique `PMBB_ID`s
of rows with a value above 0 in that column, else no one. -/
def eligible_patients (mat : ICD10Matrix) (icd10_code : String)
    (pre : String) : List String :=
  let icd10_columns := mat.columns.filter
    (fun col => decide (col ≠ "PMBB_ID" ∧ ¬ (pre.data.isPrefixOf col.data)))
  if icd10_code ∈ icd10_columns then
    ((mat.rows.filter (fun row => decide (row.2 icd10_code > 0))).map Prod.fst).dedup
  else []

/-- Models the sampling step of `filter_pmbb_by_icd10` (utils.py lines
110-117): when fewer eligible patients than requested exist they are all
taken, otherwise `random.sample(selected, num_patients)` draws exactly
`num_patients` of them; the pseudo-random draw is abstracted as a `sample`
argument.  The result is the id list written to `sampled_patient_ids.csv`. -/
def filter_pmbb_by_icd10 (mat : ICD10Matrix) (icd10_code : String)
    (num_patients : Nat) (pre : String)
    (sample : List String → Nat → List String) : List String :=
  let selected := eligible_patients mat icd10_code pre
  if selected.length < num_patients then selected
  else sample selected num_patients

/-- Models Python `int(...)` applied to the part of a code before its
first '.': a non-empty all-digit string parses to its decimal value, and
anything else raises ValueError, modelled by `none`.  (Python `int` would
additionally accept surrounding spaces, a sign or digit-group
underscores; ICD code prefixes contain none of those.) -/
def parse_int (cs : List Char) : Option Nat :=
  if cs ≠ [] ∧ cs.all Char.isDigit then
    some (cs.foldl (fun n c => 10 * n + (c.toNat - '0'.toNat)) 0)
  else none

/-- Models the ICD-9 test of `sort_icd_codes` (utils.py line 192):
`'.' in code and code[0].isdigit() and int(code.split('.')[0]) < 10`,
left to right with short circuit; `code.split('.')[0]` is the character
run before the first '.'. -/
def is_icd9 (code : String) : Option Bool :=
  if '.' ∈ code.data ∧ (code.data.headD ' ').isDigit then
    match parse_int (code.data.takeWhile (fun c => c ≠ '.')) with
    | some n => some (decide (n < 10))
    | none => none
  else
    some false

/-- Python strict string comparison: lexicographic on character code
points. -/
def py_str_lt : List Char → List Char → Bool
  | _, [] => false
  | [], _ :: _ => true
  | a :: as, b :: bs => if a = b then py_str_lt as bs else decide (a < b)

/-- Python `a <= b` on strings, the order `sorted` uses. -/
def py_str_le (a b : String) : Bool :=
  ! py_str_lt b.data a.data

/-- The Python string order as a decidable relation. -/
def py_le (a b : String) : Prop :=
  py_str_le a b = true

instance py_le_decidable : DecidableRel py_le :=
  fun a b => instDecidableEqBool (py_str_le a b) true

/-- The list comprehension building the unsorted ICD-9 sublist of
`sort_icd_codes`: keeps input order and multiplicity, and fails as soon
as one membership test fails (ValueError). -/
def filter_icd9 : List String → Option (List String)
  | [] => some []
  | code :: rest => do
    let b ← is_icd9 code
    let tail ← filter_icd9 rest
    pure (if b then code :: tail else tail)

/-- Models `sort_icd_codes` (utils.py lines 191-194): sort the ICD-9
classified codes, sort the input codes not occurring in that first list,
and concatenate.  Python `sorted` compares strings lexicographically by
code points (`py_str_le`); sorted output on a total order does not depend
on the sorting algorithm, so insertion sort stands in for timsort. -/
def sort_icd_codes (icd_codes : List String) : Option (List String) := do
  let icd9unsorted ← filter_icd9 icd_codes
  let icd9 := List.insertionSort py_le icd9unsorted
  let icd10 := List.insertionSort py_le
    (icd_codes.filter (fun code => decide (code ∉ icd9)))
  pure (icd9 ++ icd10)

/-- A 3-node end-to-end example graph: one patient node and two
gene/protein nodes, in this node order. -/
def example_kg : KnowledgeGraph :=
  { nodes := [⟨"PMBB_P1", some "patient"⟩, ⟨"G1", some "gene/protein"⟩,
      ⟨"G2", some "gene/protein"⟩]
    edges := [("PMBB_P1", "G1"), ("PMBB_P1", "G2")] }

/-- Example embedding rows for the three node ids of `example_kg`. -/
def example_embeddings (i : Nat) : List ℚ :=
  if i = 0 then [10] else if i = 1 then [20] else [30]

/-- Example variant matrix marking exactly the cell (patient, first gene)
non-zero. -/
def example_variant (p g : String) : ℚ :=
  if p = "PMBB_P1" ∧ g = "G1" then 1 else 0

/-- A small concrete patient-by-code matrix: three patients, one code
column with two positive patients, plus a Q-prefixed column. -/
def example_icd_matrix : ICD10Matrix :=
  { columns := ["PMBB_ID", "E11", "Q10"]
    rows := [("P1", fun c => if c = "E11" then 1 else 0),
             ("P2", fun _ => 0),
             ("P3", fun c => if c = "E11" then 2 else 0)] }

/-! Helper lemmas about the node-id mapping. -/

theorem lookup_zip_isSome {s : String} :
    ∀ (l : List String) (ns : List Nat), s ∈ l → l.length ≤ ns.length →
      (List.lookup s (l.zip ns)).isSome
  | [], _, h, _ => absurd h (List.not_mem_nil s)
  | _ :: _, [], _, hlen => by simp at hlen
  | x :: xs, n :: ns, hmem, hlen => by
    by_cases hx : s = x
    · simp [List.lookup, hx]
    · have hs : s ∈ xs := by
        rcases List.mem_cons.mp hmem with h | h
        · exact absurd h hx
        · exact h
      have hxb : (s == x) = false := beq_eq_false_iff_ne.mpr hx
      simp only [List.zip_cons_cons, List.lookup, hxb]
      exact lookup_zip_isSome xs ns hs (by simpa using hlen)

theorem lookup_zip_mem {s : String} {i : Nat} :
    ∀ (l : List String) (ns : List Nat),
      List.lookup s (l.zip ns) = some i → i ∈ ns
  | [], _, h => by simp [List.lookup] at h
  | _ :: _, [], h => by simp [List.lookup] at h
  | x :: xs, n :: ns, h => by
    by_cases hx : (s == x)
    · simp only [List.zip_cons_cons, List.lookup, hx] at h
      simp only [Option.some.injEq] at h
      exact h ▸ List.mem_cons_self n ns
    · simp only [List.zip_cons_cons, List.lookup, Bool.not_eq_true] at h hx
      rw [hx] at h
      exact List.mem_cons_of_mem n (lookup_zip_mem xs ns h)

/-- Keys of `create_node_mapping` are exactly the node names. -/
theorem lookup_create_node_mapping_isSome {s : String} {l : List String}
    (h : s ∈ l) : (lookup_id (create_node_mapping l) s).isSome :=
  lookup_zip_isSome l (List.range l.length) h (by simp)

/-- Ids stored by `create_node_mapping` are below the node count. -/
theorem lookup_create_node_mapping_lt {s : String} {l : List String} {i : Nat}
    (h : lookup_id (create_node_mapping l) s = some i) : i < l.length := by
  have := lookup_zip_mem (i := i) l (List.range l.length) h
  simpa using this

/-- Under all-keys-present lookups, `prepare_edge_index` succeeds. -/
theorem prepare_edge_index_isSome (m : List (String × Nat)) :
    ∀ (edges : List (String × String)),
      (∀ e ∈ edges, (lookup_id m e.1).isSome ∧ (lookup_id m e.2).isSome) →
      (prepare_edge_index m edges).isSome
  | [], _ => by simp [prepare_edge_index]
  | e :: rest, h => by
    obtain ⟨⟨a, ha⟩, b, hb⟩ :
        (∃ a, lookup_id m e.1 = some a) ∧ ∃ b, lookup_id m e.2 = some b := by
      have := h e (List.mem_cons_self e rest)
      exact ⟨Option.isSome_iff_exists.mp this.1, Option.isSome_iff_exists.mp this.2⟩
    obtain ⟨tail, htail⟩ := Option.isSome_iff_exists.mp
      (prepare_edge_index_isSome m rest (fun e' he' => h e' (List.mem_cons_of_mem e he')))
    simp [prepare_edge_index, ha, hb, htail]

/-- Success of `prepare_edge_index` on a non-empty edge list unfolds to
successful endpoint lookups plus success on the remaining edges. -/
theorem prepare_edge_index_cons (m : List (String × Nat)) (e : String × String)
    (rest : List (String × String)) (l : List (Nat × Nat)) :
    prepare_edge_index m (e :: rest) = some l ↔
      ∃ a b tail, lookup_id m e.1 = some a ∧ lookup_id m e.2 = some b ∧
        prepare_edge_index m rest = some tail ∧ l = (a, b) :: (b, a) :: tail := by
  cases ha : lookup_id m e.1 with
  | none => simp [prepare_edge_index, ha]
  | some a =>
    cases hb : lookup_id m e.2 with
    | none => simp [prepare_edge_index, ha, hb]
    | some b =>
      cases htail : prepare_edge_index m rest with
      | none => simp [prepare_edge_index, ha, hb, htail]
      | some tail => simp [prepare_edge_index, ha, hb, htail, eq_comm]

/-- Claim C1: for every loaded graph, `prepare_edge_index` records both
directions of every edge, produces exactly twice as many entries as there
are edges, and keeps parallel edges: for any mapped pair, entries matching
it in either direction number exactly twice the source edges whose mapped
endpoints form that pair. -/
theorem prepare_edge_index_both_directions
    (m : List (String × Nat)) (edges : List (String × String))
    (l : List (Nat × Nat)) (h : prepare_edge_index m edges = some l) :
    l.length = 2 * edges.length ∧
    (∀ e ∈ edges, ∀ a b, lookup_id m e.1 = some a → lookup_id m e.2 = some b →
      (a, b) ∈ l ∧ (b, a) ∈ l) ∧
    (∀ x y : Nat,
      l.countP (fun q' => decide (q' = (x, y) ∨ q' = (y, x))) =
        2 * edges.countP (fun e => decide
          ((lookup_id m e.1 = some x ∧ lookup_id m e.2 = some y) ∨
           (lookup_id m e.1 = some y ∧ lookup_id m e.2 = some x)))) := by
  induction edges generalizing l with
  | nil =>
    simp only [prepare_edge_index, Option.some.injEq] at h
    subst h
    simp
  | cons e rest ih =>
    rw [prepare_edge_index_cons] at h
    obtain ⟨a, b, tail, ha, hb, htail, hl⟩ := h
    obtain ⟨ih1, ih2, ih3⟩ := ih tail htail
    subst hl
    refine ⟨by simp [ih1]; ring, ?_, ?_⟩
    · rintro e' he' a' b' ha' hb'
      rcases List.mem_cons.mp he' with rfl | he'
      · have haa : a' = a := by rw [ha] at ha'; exact (Option.some.injEq _ _ ▸ ha').symm
        have hbb : b' = b := by rw [hb] at hb'; exact (Option.some.injEq _ _ ▸ hb').symm
        subst haa; subst hbb
        exact ⟨List.mem_cons_self _ _, List.mem_cons_of_mem _ (List.mem_cons_self _ _)⟩
      · obtain ⟨h1, h2⟩ := ih2 e' he' a' b' ha' hb'
        exact ⟨List.mem_cons_of_mem _ (List.mem_cons_of_mem _ h1),
          List.mem_cons_of_mem _ (List.mem_cons_of_mem _ h2)⟩
    · intro x y
      rw [List.countP_cons, List.countP_cons, List.countP_cons, ih3 x y]
      have e1 : (decide (((a : Nat), (b : Nat)) = (x, y) ∨ ((a : Nat), (b : Nat)) = (y, x))) =
          (decide ((a = x ∧ b = y) ∨ (a = y ∧ b = x))) := by
        rw [decide_eq_decide]; simp [Prod.ext_iff]
      have e2 : (decide (((b : Nat), (a : Nat)) = (x, y) ∨ ((b : Nat), (a : Nat)) = (y, x))) =
          (decide ((a = x ∧ b = y) ∨ (a = y ∧ b = x))) := by
        rw [decide_eq_decide]; simp [Prod.ext_iff]; tauto
      have e3 : (decide ((lookup_id m e.1 = some x ∧ lookup_id m e.2 = some y) ∨
          (lookup_id m e.1 = some y ∧ lookup_id m e.2 = some x))) =
          (decide ((a = x ∧ b = y) ∨ (a = y ∧ b = x))) := by
        rw [decide_eq_decide]; simp [ha, hb, eq_comm]
      rw [e1, e2, e3]
      by_cases hc : ((a = x ∧ b = y) ∨ (a = y ∧ b = x))
      · simp [hc]; ring
      · simp [hc]

/-- Witness for C1 on a one-edge graph. -/
theorem prepare_edge_index_both_directions_witness :
    prepare_edge_index (create_node_mapping ["a", "b"]) [("a", "b")] =
      some [(0, 1), (1, 0)] ∧
    ([(0, 1), (1, 0)] : List (Nat × Nat)).length =
      2 * ([("a", "b")] : List (String × String)).length :=
  ⟨by decide,
   (prepare_edge_index_both_directions (create_node_mapping ["a", "b"])
     [("a", "b")] [(0, 1), (1, 0)] (by decide)).1⟩

/-- Claim C5: every node name is a key of the node-id mapping, so for a
graph whose edges reference existing nodes (as networkx guarantees) every
lookup of `prepare_edge_index` succeeds and its error branch is
unreachable, and patient/gene lookups of ids that are graph nodes succeed
as well. -/
theorem create_node_mapping_covers_graph (kg : KnowledgeGraph)
    (hvalid : ∀ e ∈ kg.edges, e.1 ∈ node_names kg ∧ e.2 ∈ node_names kg) :
    (∀ s ∈ node_names kg,
      (lookup_id (create_node_mapping (node_names kg)) s).isSome) ∧
    (prepare_edge_index (create_node_mapping (node_names kg)) kg.edges).isSome := by
  refine ⟨fun s hs => lookup_create_node_mapping_isSome hs, ?_⟩
  refine prepare_edge_index_isSome _ kg.edges (fun e he => ?_)
  obtain ⟨h1, h2⟩ := hvalid e he
  exact ⟨lookup_create_node_mapping_isSome h1, lookup_create_node_mapping_isSome h2⟩

/-- Witness for C5 on a two-node, one-edge graph. -/
theorem create_node_mapping_covers_graph_witness :
    (∀ e ∈ (KnowledgeGraph.mk [⟨"a", some "gene/protein"⟩, ⟨"b", none⟩]
        [("a", "b")]).edges,
      e.1 ∈ node_names (KnowledgeGraph.mk [⟨"a", some "gene/protein"⟩, ⟨"b", none⟩]
        [("a", "b")]) ∧
      e.2 ∈ node_names (KnowledgeGraph.mk [⟨"a", some "gene/protein"⟩, ⟨"b", none⟩]
        [("a", "b")])) ∧
    (prepare_edge_index
      (create_node_mapping (node_names (KnowledgeGraph.mk
        [⟨"a", some "gene/protein"⟩, ⟨"b", none⟩] [("a", "b")])))
      (KnowledgeGraph.mk [⟨"a", some "gene/protein"⟩, ⟨"b", none⟩]
        [("a", "b")]).edges).isSome :=
  ⟨by decide,
   (create_node_mapping_covers_graph _ (by decide)).2⟩

/-! Helper lemmas about `lookup_ids` and cross-product `flatMap`, used
for the feature/label generator. -/

theorem lookup_ids_cons {m : List (String × Nat)} {x : String} {xs : List String}
    {l : List Nat} :
    lookup_ids m (x :: xs) = some l ↔
      ∃ y ys, lookup_id m x = some y ∧ lookup_ids m xs = some ys ∧
        l = y :: ys := by
  cases hy : lookup_id m x with
  | none => simp [lookup_ids, hy]
  | some y =>
    cases hys : lookup_ids m xs with
    | none => simp [lookup_ids, hy, hys]
    | some ys => simp [lookup_ids, hy, hys, eq_comm]

theorem lookup_ids_length {m : List (String × Nat)} :
    ∀ {l : List String} {l' : List Nat},
      lookup_ids m l = some l' → l'.length = l.length := by
  intro l
  induction l with
  | nil =>
    intro l' h
    simp only [lookup_ids, Option.some.injEq] at h
    simp [← h]
  | cons x xs ih =>
    intro l' h
    rw [lookup_ids_cons] at h
    obtain ⟨y, ys, _, hys, hl⟩ := h
    subst hl
    simp [ih hys]

theorem lookup_ids_getElem {m : List (String × Nat)} :
    ∀ {l : List String} {l' : List Nat} {i : Nat} {x : String},
      lookup_ids m l = some l' → l[i]? = some x → l'[i]? = lookup_id m x := by
  intro l
  induction l with
  | nil => intro l' i x _ hx; simp at hx
  | cons a as ih =>
    intro l' i x h hx
    rw [lookup_ids_cons] at h
    obtain ⟨y, ys, hy, hys, hl⟩ := h
    subst hl
    cases i with
    | zero =>
      simp only [List.getElem?_cons_zero, Option.some.injEq] at hx
      subst hx
      simp [hy]
    | succ i' =>
      rw [List.getElem?_cons_succ] at hx ⊢
      exact ih hys hx

theorem length_flatMap_map {α β γ : Type} (l : List α) (g : List β)
    (f : α → β → γ) :
    (l.flatMap (fun x => g.map (f x))).length = l.length * g.length := by
  induction l with
  | nil => simp
  | cons x xs ih => simp [List.flatMap_cons, ih, Nat.succ_mul, Nat.add_comm]

theorem flatMap_map_getElem {α β γ : Type} {l : List α} {g : List β}
    (f : α → β → γ) :
    ∀ {i : Nat} {x : α} {y : β}, l[i]? = some x → g[j]? = some y →
      (l.flatMap (fun a => g.map (f a)))[i * g.length + j]? = some (f x y) := by
  induction l with
  | nil => intro i x y hx _; simp at hx
  | cons a as ih =>
    intro i x y hx hy
    cases i with
    | zero =>
      simp only [List.getElem?_cons_zero, Option.some.injEq] at hx
      subst hx
      rw [List.flatMap_cons]
      have hj : j < (g.map (f a)).length := by
        rw [List.length_map]
        obtain ⟨hj, -⟩ := List.getElem?_eq_some_iff.mp hy
        exact hj
      rw [Nat.zero_mul, Nat.zero_add, List.getElem?_append_left hj,
        List.getElem?_map, hy]
      rfl
    | succ i' =>
      rw [List.getElem?_cons_succ] at hx
      rw [List.flatMap_cons]
      have hlen : (g.map (f a)).length = g.length := List.length_map g (f a)
      have hle : (g.map (f a)).length ≤ (i' + 1) * g.length + j := by
        rw [hlen, Nat.succ_mul]
        omega
      rw [List.getElem?_append_right hle]
      have harith : (i' + 1) * g.length + j - (g.map (f a)).length =
          i' * g.length + j := by
        rw [hlen, Nat.succ_mul]
        omega
      rw [harith]
      exact ih hx hy

/-- Success of the feature/label generator unfolds to successful patient
and gene id lookups plus the two cross-product lists. -/
theorem generate_features_and_labels_eq_some {m : List (String × Nat)}
    {embeddings : Nat → List ℚ} {variant : String → String → ℚ}
    {patient_ids gene_nodes : List String} {fl : List (List ℚ) × List Nat} :
    generate_features_and_labels m embeddings variant patient_ids gene_nodes =
      some fl ↔
    ∃ pidx gidx, lookup_ids m patient_ids = some pidx ∧
      lookup_ids m gene_nodes = some gidx ∧
      fl = ((pidx.zip patient_ids).flatMap (fun p =>
              (gidx.zip gene_nodes).map (fun g => embeddings p.1 ++ embeddings g.1)),
            (pidx.zip patient_ids).flatMap (fun p =>
              (gidx.zip gene_nodes).map (fun g =>
                if variant p.2 g.2 ≠ 0 then 1 else 0))) := by
  cases hp : lookup_ids m patient_ids with
  | none => simp [generate_features_and_labels, hp]
  | some pidx =>
    cases hg : lookup_ids m gene_nodes with
    | none => simp [generate_features_and_labels, hp, hg]
    | some gidx => simp [generate_features_and_labels, hp, hg, eq_comm]

/-- Claim C2: whenever the generator succeeds it emits exactly
`|patients| * |genes|` feature records and as many labels. -/
theorem generate_features_and_labels_counts (m : List (String × Nat))
    (embeddings : Nat → List ℚ) (variant : String → String → ℚ)
    (patient_ids gene_nodes : List String)
    (features : List (List ℚ)) (labels : List Nat)
    (h : generate_features_and_labels m embeddings variant patient_ids gene_nodes =
      some (features, labels)) :
    features.length = patient_ids.length * gene_nodes.length ∧
    labels.length = patient_ids.length * gene_nodes.length := by
  rw [generate_features_and_labels_eq_some] at h
  obtain ⟨pidx, gidx, hp, hg, hfl⟩ := h
  simp only [Prod.mk.injEq] at hfl
  have hplen : pidx.length = patient_ids.length := lookup_ids_length hp
  have hglen : gidx.length = gene_nodes.length := lookup_ids_length hg
  have hzp : (pidx.zip patient_ids).length = patient_ids.length := by
    simp [List.length_zip, hplen]
  have hzg : (gidx.zip gene_nodes).length = gene_nodes.length := by
    simp [List.length_zip, hglen]
  constructor
  · rw [hfl.1, length_flatMap_map, hzp, hzg]
  · rw [hfl.2, length_flatMap_map, hzp, hzg]

/-- Witness for C2: one patient and two genes give two records. -/
theorem generate_features_and_labels_counts_witness :
    generate_features_and_labels (create_node_mapping (node_names example_kg))
        example_embeddings example_variant ["PMBB_P1"] ["G1", "G2"] =
      some ([[10, 20], [10, 30]], [1, 0]) ∧
    ([[10, 20], [10, 30]] : List (List ℚ)).length =
      (["PMBB_P1"] : List String).length * (["G1", "G2"] : List String).length :=
  ⟨by decide,
   (generate_features_and_labels_counts (create_node_mapping (node_names example_kg))
     example_embeddings example_variant ["PMBB_P1"] ["G1", "G2"]
     [[10, 20], [10, 30]] [1, 0] (by decide)).1⟩

/-- Claim C3: each emitted feature is the concatenation of the patient
and gene embeddings, each label is 1 exactly when the variant cell is
non-zero and 0 otherwise, and every label is 0 or 1. -/
theorem generate_features_and_labels_entries (m : List (String × Nat))
    (embeddings : Nat → List ℚ) (variant : String → String → ℚ)
    (patient_ids gene_nodes : List String)
    (features : List (List ℚ)) (labels : List Nat)
    (h : generate_features_and_labels m embeddings variant patient_ids gene_nodes =
      some (features, labels))
    (i j : Nat) (pid gene : String) (a b : Nat)
    (hpi : patient_ids[i]? = some pid) (hgj : gene_nodes[j]? = some gene)
    (ha : lookup_id m pid = some a) (hb : lookup_id m gene = some b) :
    features[i * gene_nodes.length + j]? =
      some (embeddings a ++ embeddings b) ∧
    labels[i * gene_nodes.length + j]? =
      some (if variant pid gene ≠ 0 then 1 else 0) ∧
    (∀ lab ∈ labels, lab = 0 ∨ lab = 1) := by
  rw [generate_features_and_labels_eq_some] at h
  obtain ⟨pidx, gidx, hp, hg, hfl⟩ := h
  simp only [Prod.mk.injEq] at hfl
  have hglen : gidx.length = gene_nodes.length := lookup_ids_length hg
  have hzg : (gidx.zip gene_nodes).length = gene_nodes.length := by
    simp [List.length_zip, hglen]
  have hpa : pidx[i]? = some a := by rw [lookup_ids_getElem hp hpi, ha]
  have hgb : gidx[j]? = some b := by rw [lookup_ids_getElem hg hgj, hb]
  have hzpi : (pidx.zip patient_ids)[i]? = some (a, pid) :=
    List.getElem?_zip_eq_some.mpr ⟨hpa, hpi⟩
  have hzgj : (gidx.zip gene_nodes)[j]? = some (b, gene) :=
    List.getElem?_zip_eq_some.mpr ⟨hgb, hgj⟩
  refine ⟨?_, ?_, ?_⟩
  · rw [hfl.1, ← hzg]
    exact flatMap_map_getElem _ hzpi hzgj
  · rw [hfl.2, ← hzg]
    exact flatMap_map_getElem _ hzpi hzgj
  · intro lab hlab
    rw [hfl.2] at hlab
    rw [List.mem_flatMap] at hlab
    obtain ⟨p, _, hmem⟩ := hlab
    rw [List.mem_map] at hmem
    obtain ⟨g, _, hval⟩ := hmem
    by_cases hv : variant p.2 g.2 ≠ 0
    · right; rw [← hval]; simp [hv]
    · left; rw [← hval]; simp [hv]

/-- Witness for C3 at patient 0, gene 1 of the example. -/
theorem generate_features_and_labels_entries_witness :
    generate_features_and_labels (create_node_mapping (node_names example_kg))
        example_embeddings example_variant ["PMBB_P1"] ["G1", "G2"] =
      some ([[10, 20], [10, 30]], [1, 0]) ∧
    (([[10, 20], [10, 30]] : List (List ℚ))[0 * (["G1", "G2"] : List String).length + 1]? =
      some (example_embeddings 0 ++ example_embeddings 2) ∧
    ([1, 0] : List Nat)[0 * (["G1", "G2"] : List String).length + 1]? =
      some (if example_variant "PMBB_P1" "G2" ≠ 0 then 1 else 0) ∧
    (∀ lab ∈ ([1, 0] : List Nat), lab = 0 ∨ lab = 1)) :=
  ⟨by decide,
   generate_features_and_labels_entries (create_node_mapping (node_names example_kg))
     example_embeddings example_variant ["PMBB_P1"] ["G1", "G2"]
     [[10, 20], [10, 30]] [1, 0] (by decide)
     0 1 "PMBB_P1" "G2" 0 2 (by decide) (by decide) (by decide) (by decide)⟩

/-- Claim C4: on the 3-node example graph (1 patient, 2 genes) with the
variant matrix marking the first gene, the generator yields exactly the
two feature records and the labels [1, 0] in gene order. -/
theorem generate_features_and_labels_example :
    gene_protein_nodes example_kg = ["G1", "G2"] ∧
    generate_features_and_labels (create_node_mapping (node_names example_kg))
        example_embeddings example_variant ["PMBB_P1"]
        (gene_protein_nodes example_kg) =
      some ([[10, 20], [10, 30]], [1, 0]) ∧
    ([[10, 20], [10, 30]] : List (List ℚ)).length = 2 := by
  refine ⟨by decide, by decide, by decide⟩

/-- Counterexample to C6: the claim lists walk length among the
externally configurable parameters of the embedding trainer, but the
function signature exposes only `embedding_dim`. -/
theorem walk_length_not_configurable :
    "walk_length" ∉ train_node_embeddings_external_params := by decide

/-- Claim C6 (amended): only the embedding dimensionality is externally
configurable (default 128); walk length 50, 40 walks per node, context
window 20, p = 0.5, q = 2, batch size 64, learning rate 0.005, sparse
updates and 50 epochs are fixed for every choice of the external
parameter. -/
theorem train_node_embeddings_config_spec :
    train_node_embeddings_external_params = ["embedding_dim"] ∧
    train_node_embeddings_default_dim = 128 ∧
    ∀ d : Nat,
      (train_node_embeddings_config d).embedding_dim = d ∧
      (train_node_embeddings_config d).walk_length = 50 ∧
      (train_node_embeddings_config d).walks_per_node = 40 ∧
      (train_node_embeddings_config d).context_size = 20 ∧
      (train_node_embeddings_config d).p = 1 / 2 ∧
      (train_node_embeddings_config d).q = 2 ∧
      (train_node_embeddings_config d).sparse = true ∧
      (train_node_embeddings_config d).batch_size = 64 ∧
      (train_node_embeddings_config d).learning_rate = 1 / 200 ∧
      (train_node_embeddings_config d).num_epochs = 50 := by
  exact ⟨rfl, rfl, fun d =>
    ⟨rfl, rfl, rfl, rfl, rfl, rfl, rfl, rfl, rfl, rfl⟩⟩

/-- Claim C7: the classifier trainer splits 80/20 with random_state 42,
fits a logistic regression capped at 1000 iterations of an iterative
solver, persists the model, and computes precision, recall, F1 and
accuracy on the held-out test split; for every sample count the two
partition sizes sum to the total and the test part is exactly the 20%
share rounded up. -/
theorem train_binary_classifier_spec :
    train_binary_classifier_run.test_size = 1 / 5 ∧
    train_binary_classifier_run.random_state = 42 ∧
    train_binary_classifier_run.classifier_type = "LogisticRegression" ∧
    train_binary_classifier_run.classifier_solver = "saga" ∧
    train_binary_classifier_run.classifier_max_iter = 1000 ∧
    train_binary_classifier_run.model_persisted_to =
      "./logistic_regression_model.pkl" ∧
    train_binary_classifier_run.metrics =
      ["precision", "recall", "f1", "accuracy"] ∧
    train_binary_classifier_run.metrics_split = "test" ∧
    ∀ n : Nat,
      (train_test_split_counts n).1 + (train_test_split_counts n).2 = n ∧
      n ≤ 5 * (train_test_split_counts n).2 ∧
      5 * (train_test_split_counts n).2 < n + 5 := by
  refine ⟨rfl, rfl, rfl, rfl, rfl, rfl, rfl, rfl, fun n => ?_⟩
  simp only [train_test_split_counts]
  omega

/-- Flattening a uniform-width matrix row-major and re-chunking it at the
stored shape restores the matrix. -/
theorem unflatten_flatten (dim : Nat) (m : List (List ℚ))
    (h : ∀ row ∈ m, row.length = dim) :
    unflatten dim m.length m.flatten = m := by
  induction m with
  | nil => rfl
  | cons row rest ih =>
    have hrow : row.length = dim := h row (List.mem_cons_self row rest)
    subst hrow
    simp only [List.flatten_cons, List.length_cons, unflatten]
    rw [List.take_left, List.drop_left]
    rw [ih fun r hr => h r (List.mem_cons_of_mem row hr)]

/-- Claim C8: saving the embedding matrix (npy shape header plus flat
buffer) and the node list, then reloading both, reproduces the matrix
exactly, rebuilds the identical node-id mapping, and hence yields the
identical embedding vector for every node id the mapping resolves. -/
theorem embeddings_roundtrip (nodes : List String) (m : List (List ℚ))
    (dim : Nat) (hrows : ∀ row ∈ m, row.length = dim)
    (hcount : m.length = nodes.length) :
    npy_load (npy_save dim m) = m ∧
    create_node_mapping (reload_node_list nodes) = create_node_mapping nodes ∧
    ∀ s i, lookup_id (create_node_mapping (reload_node_list nodes)) s = some i →
      (npy_load (npy_save dim m))[i]? = m[i]? ∧
      ((npy_load (npy_save dim m))[i]?).isSome := by
  have hrt : npy_load (npy_save dim m) = m := by
    simp only [npy_load, npy_save]
    exact unflatten_flatten dim m hrows
  refine ⟨hrt, rfl, fun s i hs => ?_⟩
  have hi : i < m.length := by
    rw [hcount]
    exact lookup_create_node_mapping_lt hs
  refine ⟨by rw [hrt], ?_⟩
  rw [hrt, List.getElem?_eq_getElem hi]
  rfl

/-- Witness for C8 on a two-row matrix of width one. -/
theorem embeddings_roundtrip_witness :
    (∀ row ∈ ([[3], [4]] : List (List ℚ)), row.length = 1) ∧
    ([[3], [4]] : List (List ℚ)).length = (["a", "b"] : List String).length ∧
    npy_load (npy_save 1 [[3], [4]]) = [[3], [4]] :=
  ⟨by decide, by decide,
   (embeddings_roundtrip ["a", "b"] [[3], [4]] 1 (by decide) (by decide)).1⟩

/-- Claim C9: the sampled id list of `filter_pmbb_by_icd10` always has
length `min num_patients #eligible`, and a requested code that is absent
from the matrix columns or starts with the excluded prefix gives an empty
sample. -/
theorem filter_pmbb_by_icd10_spec (mat : ICD10Matrix) (icd10_code : String)
    (num_patients : Nat) (pre : String)
    (sample : List String → Nat → List String)
    (hsample : ∀ pop k, k ≤ pop.length → (sample pop k).length = k) :
    (filter_pmbb_by_icd10 mat icd10_code num_patients pre sample).length =
      min num_patients (eligible_patients mat icd10_code pre).length ∧
    ((icd10_code ∉ mat.columns ∨ pre.data.isPrefixOf icd10_code.data) →
      filter_pmbb_by_icd10 mat icd10_code num_patients pre sample = []) := by
  constructor
  · unfold filter_pmbb_by_icd10
    by_cases hlt : (eligible_patients mat icd10_code pre).length < num_patients
    · rw [if_pos hlt]
      omega
    · rw [if_neg hlt]
      rw [hsample _ _ (by omega)]
      omega
  · intro hcode
    have hel : eligible_patients mat icd10_code pre = [] := by
      unfold eligible_patients
      rw [if_neg]
      intro hmem
      rw [List.mem_filter, decide_eq_true_iff] at hmem
      obtain ⟨hcol, -, hpred⟩ := hmem
      rcases hcode with h | h
      · exact h hcol
      · exact hpred h
    unfold filter_pmbb_by_icd10
    rw [hel]
    simp only [List.length_nil]
    split
    · rfl
    · rename_i hnum
      have h0 : num_patients = 0 := by omega
      subst h0
      have := hsample [] 0 (by simp)
      exact List.length_eq_zero.mp this

/-- Witness for C9: requesting one patient among two eligible ones. -/
theorem filter_pmbb_by_icd10_spec_witness :
    (∀ (pop : List String) (k : Nat), k ≤ pop.length →
      (pop.take k).length = k) ∧
    (filter_pmbb_by_icd10 example_icd_matrix "E11" 1 "Q"
        (fun pop k => pop.take k)).length =
      min 1 (eligible_patients example_icd_matrix "E11" "Q").length :=
  ⟨fun pop k hk => by rw [List.length_take]; omega,
   (filter_pmbb_by_icd10_spec example_icd_matrix "E11" 1 "Q"
     (fun pop k => pop.take k)
     (fun pop k hk => by rw [List.length_take]; omega)).1⟩

/-! Order lemmas for the Python string comparison. -/

theorem py_str_lt_asymm : ∀ x y, py_str_lt x y = true → py_str_lt y x = false
  | [], [] => by simp [py_str_lt]
  | [], _ :: _ => by intro _; simp [py_str_lt]
  | _ :: _, [] => by simp [py_str_lt]
  | a :: as, b :: bs => by
    intro h
    simp only [py_str_lt] at h ⊢
    by_cases hab : a = b
    · subst hab
      rw [if_pos rfl] at h ⊢
      exact py_str_lt_asymm as bs h
    · rw [if_neg hab] at h
      rw [if_neg (Ne.symm hab)]
      rw [decide_eq_true_iff] at h
      rw [decide_eq_false_iff_not]
      exact lt_asymm h

theorem py_str_lt_trichotomy :
    ∀ x y, py_str_lt x y = true ∨ x = y ∨ py_str_lt y x = true
  | [], [] => Or.inr (Or.inl rfl)
  | [], _ :: _ => Or.inl (by simp [py_str_lt])
  | _ :: _, [] => Or.inr (Or.inr (by simp [py_str_lt]))
  | a :: as, b :: bs => by
    rcases lt_trichotomy a b with h | h | h
    · refine Or.inl ?_
      simp only [py_str_lt]
      rw [if_neg (ne_of_lt h), decide_eq_true_iff]
      exact h
    · subst h
      rcases py_str_lt_trichotomy as bs with h' | h' | h'
      · exact Or.inl (by simp [py_str_lt, h'])
      · exact Or.inr (Or.inl (by rw [h']))
      · exact Or.inr (Or.inr (by simp [py_str_lt, h']))
    · refine Or.inr (Or.inr ?_)
      simp only [py_str_lt]
      rw [if_neg (ne_of_lt h), decide_eq_true_iff]
      exact h

theorem py_str_lt_trans :
    ∀ x y z, py_str_lt x y = true → py_str_lt y z = true → py_str_lt x z = true
  | _, _, [] => by intro _ h; simp [py_str_lt] at h
  | [], _, _ :: _ => by intro _ _; simp [py_str_lt]
  | _ :: _, [], _ :: _ => by intro h _; simp [py_str_lt] at h
  | a :: as, b :: bs, c :: cs => by
    intro h1 h2
    simp only [py_str_lt] at h1 h2 ⊢
    by_cases hab : a = b
    · subst hab
      rw [if_pos rfl] at h1
      by_cases hac : a = c
      · subst hac
        rw [if_pos rfl] at h2 ⊢
        exact py_str_lt_trans as bs cs h1 h2
      · rw [if_neg hac] at h2 ⊢
        exact h2
    · rw [if_neg hab, decide_eq_true_iff] at h1
      by_cases hbc : b = c
      · subst hbc
        have hac : a ≠ b := hab
        rw [if_neg hac, decide_eq_true_iff]
        exact h1
      · rw [if_neg hbc, decide_eq_true_iff] at h2
        have hac : a < c := lt_trans h1 h2
        rw [if_neg (ne_of_lt hac), decide_eq_true_iff]
        exact hac

instance py_str_le_isTotal : IsTotal String py_le :=
  ⟨fun a b => by
    cases h : py_str_lt b.data a.data with
    | false => exact Or.inl (by simp [py_le, py_str_le, h])
    | true => exact Or.inr (by simp [py_le, py_str_le, py_str_lt_asymm _ _ h])⟩

instance py_str_le_isTrans : IsTrans String py_le :=
  ⟨fun a b c hab hbc => by
    simp only [py_le, py_str_le, Bool.not_eq_true'] at hab hbc ⊢
    by_contra hca
    rw [Bool.not_eq_false] at hca
    rcases py_str_lt_trichotomy a.data b.data with h | h | h
    · have := py_str_lt_trans c.data a.data b.data hca h
      rw [hbc] at this
      exact Bool.false_ne_true this
    · rw [h] at hca
      rw [hbc] at hca
      exact Bool.false_ne_true hca
    · rw [hab] at h
      exact Bool.false_ne_true h⟩

/-! Characterization of the ICD-9 list comprehension. -/

theorem filter_icd9_cons {c : String} {rest : List String} {l : List String} :
    filter_icd9 (c :: rest) = some l ↔
      ∃ b tail, is_icd9 c = some b ∧ filter_icd9 rest = some tail ∧
        l = if b then c :: tail else tail := by
  cases hb : is_icd9 c with
  | none => simp [filter_icd9, hb]
  | some b =>
    cases htail : filter_icd9 rest with
    | none => simp [filter_icd9, hb, htail]
    | some tail => simp [filter_icd9, hb, htail, eq_comm]

theorem filter_icd9_some :
    ∀ {codes l : List String}, filter_icd9 codes = some l →
      (∀ c ∈ codes, ∃ b, is_icd9 c = some b) ∧
      l = codes.filter (fun c => decide (is_icd9 c = some true)) := by
  intro codes
  induction codes with
  | nil =>
    intro l h
    simp only [filter_icd9, Option.some.injEq] at h
    simp [← h]
  | cons c rest ih =>
    intro l h
    rw [filter_icd9_cons] at h
    obtain ⟨b, tail, hb, htail, hl⟩ := h
    obtain ⟨ih1, ih2⟩ := ih htail
    constructor
    · intro c' hc'
      rcases List.mem_cons.mp hc' with rfl | hc'
      · exact ⟨b, hb⟩
      · exact ih1 c' hc'
    · subst hl
      cases b with
      | true =>
        rw [if_pos rfl]
        simp [List.filter_cons, hb, ih2]
      | false =>
        rw [if_neg Bool.false_ne_true]
        simp [List.filter_cons, hb, ih2]

/-- Success of `sort_icd_codes` unfolds to a successful ICD-9
classification pass followed by the two sorts and the concatenation. -/
theorem sort_icd_codes_eq_some {codes out : List String} :
    sort_icd_codes codes = some out ↔
      ∃ u, filter_icd9 codes = some u ∧
        out = List.insertionSort py_le u ++
          List.insertionSort py_le
            (codes.filter (fun code => decide
              (code ∉ List.insertionSort py_le u))) := by
  cases hu : filter_icd9 codes with
  | none => simp [sort_icd_codes, hu]
  | some u => simp [sort_icd_codes, hu, eq_comm]

/-- Counterexample to C10 as stated: on the input list `["1X.2"]` the
Python function raises ValueError (the code contains '.', starts with a
digit, but its prefix "1X" is not numeric), so no permutation of the
input is returned. -/
theorem sort_icd_codes_valueerror : sort_icd_codes ["1X.2"] = none := by decide

/-- Claim C10 (amended): whenever `sort_icd_codes` returns a result
(i.e. every code containing '.' and starting with a digit has a numeric
prefix), the result is a permutation of the input — no code lost, added
or duplicated beyond its input multiplicity — whose first block (of the
length of the ICD-9-classified sublist) holds only ICD-9-classified codes
in sorted order, followed by only non-ICD-9 codes in sorted order. -/
theorem sort_icd_codes_spec (codes out : List String)
    (h : sort_icd_codes codes = some out) :
    out.Perm codes ∧
    List.Sorted py_le
      (out.take (codes.filter (fun c => decide (is_icd9 c = some true))).length) ∧
    List.Sorted py_le
      (out.drop (codes.filter (fun c => decide (is_icd9 c = some true))).length) ∧
    (∀ c ∈ out.take (codes.filter (fun c => decide (is_icd9 c = some true))).length,
      is_icd9 c = some true) ∧
    (∀ c ∈ out.drop (codes.filter (fun c => decide (is_icd9 c = some true))).length,
      is_icd9 c = some false) := by
  rw [sort_icd_codes_eq_some] at h
  obtain ⟨u, hu, hout⟩ := h
  obtain ⟨hall, hufilter⟩ := filter_icd9_some hu
  have hpermS9 : (List.insertionSort py_le u).Perm u := List.perm_insertionSort py_le u
  have hpermS10 : (List.insertionSort py_le
      (codes.filter (fun code => decide (code ∉ List.insertionSort py_le u)))).Perm
      (codes.filter (fun code => decide (code ∉ List.insertionSort py_le u))) :=
    List.perm_insertionSort py_le _
  have hmemS9 : ∀ c, c ∈ List.insertionSort py_le u ↔
      (c ∈ codes ∧ is_icd9 c = some true) := by
    intro c
    rw [hpermS9.mem_iff, hufilter, List.mem_filter]
    simp
  have hFeq : codes.filter (fun code => decide (code ∉ List.insertionSort py_le u)) =
      codes.filter (fun c => !(decide (is_icd9 c = some true))) := by
    refine List.filter_congr ?_
    intro c hc
    rcases hmem : decide (is_icd9 c = some true) with _ | _
    · simp only [Bool.not_false, decide_eq_true_iff]
      intro hcS9
      rw [hmemS9 c] at hcS9
      rw [decide_eq_false_iff_not] at hmem
      exact hmem hcS9.2
    · simp only [Bool.not_true, decide_eq_false_iff_not, Decidable.not_not]
      rw [decide_eq_true_iff] at hmem
      rw [hmemS9 c]
      exact ⟨hc, hmem⟩
  have hlenS9 : (List.insertionSort py_le u).length =
      (codes.filter (fun c => decide (is_icd9 c = some true))).length := by
    rw [hpermS9.length_eq, hufilter]
  have htake : out.take (codes.filter (fun c => decide (is_icd9 c = some true))).length =
      List.insertionSort py_le u := by
    rw [hout, ← hlenS9, List.take_left]
  have hdrop : out.drop (codes.filter (fun c => decide (is_icd9 c = some true))).length =
      List.insertionSort py_le
        (codes.filter (fun code => decide (code ∉ List.insertionSort py_le u))) := by
    rw [hout, ← hlenS9, List.drop_left]
  refine ⟨?_, ?_, ?_, ?_, ?_⟩
  · rw [hout]
    refine (hpermS9.append hpermS10).trans ?_
    rw [hFeq, hufilter]
    exact List.filter_append_perm _ codes
  · rw [htake]
    exact List.sorted_insertionSort py_le u
  · rw [hdrop]
    exact List.sorted_insertionSort py_le _
  · intro c hc
    rw [htake] at hc
    exact ((hmemS9 c).mp hc).2
  · intro c hc
    rw [hdrop] at hc
    have hcF : c ∈ codes.filter (fun code => decide (code ∉ List.insertionSort py_le u)) :=
      hpermS10.mem_iff.mp hc
    rw [hFeq, List.mem_filter] at hcF
    obtain ⟨hccodes, hcneg⟩ := hcF
    obtain ⟨b, hb⟩ := hall c hccodes
    cases b with
    | true =>
      rw [Bool.not_eq_true', decide_eq_false_iff_not] at hcneg
      exact absurd hb hcneg
    | false => exact hb

/-- Witness for C10 on a four-code list with two ICD-9 codes. -/
theorem sort_icd_codes_spec_witness :
    sort_icd_codes ["B20", "5.2", "A01.1", "3.1"] =
      some ["3.1", "5.2", "A01.1", "B20"] ∧
    (["3.1", "5.2", "A01.1", "B20"] : List String).Perm
      ["B20", "5.2", "A01.1", "3.1"] :=
  ⟨by decide,
   (sort_icd_codes_spec ["B20", "5.2", "A01.1", "3.1"]
     ["3.1", "5.2", "A01.1", "B20"] (by decide)).1⟩

end Bmin520
